import Mathlib

/-!
# Verification of the ENOM dashboard core (`enomdash.py`)

Shallow embedding of the filter–aggregate–shape pipeline of `enomdash.py`:
the chart function `plot_line_chart` (lines 64–113), the cascading selector
logic (lines 247–259 and 330–341 and analogues), the site-id self-healing
reset (lines 402–407), the KPI color-band function `color_final_kpi`
(lines 177–189), and the display/export block (lines 199–237).

Modelling conventions:
* A pandas row is a `Row`: an association list of categorical (dimension)
  columns, plus the `"Month"` column and the `"Availability (Ave)"` metric
  cell.  A missing (NaN) value is `none`.
* The metric cell is `Option ℚ`: `some q` for a cell that
  `pd.to_numeric(_, errors='coerce')` coerces to the number `q`, `none` for a
  cell that coerces to NaN (missing or malformed); `dropna` then removes
  exactly the `none` rows, matching lines 75–76.
* Machine floats are modelled by `ℚ`.  `Series.round(2)` is modelled by
  `round2` (round half up at two decimals); for values already representable
  with two decimals — the case every claim exercises — every rounding
  convention agrees.
* Python string comparison (used by `sorted` and `sort_values`) is
  lexicographic on code points; it is modelled by `strLt`/`strLe` on the
  character lists.
* `random.choice` is modelled by an arbitrary choice index `k : ℕ`, reduced
  mod the list length; uniformity is expressed as "every concrete member is
  the outcome for some choice index".
-/

namespace Enomdash

/-- A dataset row: categorical dimension columns as an association list
(`none`/absent = NaN), the `"Month"` column, and the raw
`"Availability (Ave)"` metric cell after numeric coercion
(`none` = fails `pd.to_numeric(_, errors='coerce')`, i.e. NaN). -/
structure Row where
  dims : List (String × String)
  month : Option String
  avail : Option ℚ
  deriving DecidableEq, Repr

/-- Column access `row[col]` for a categorical column; `none` models NaN. -/
def Row.col (r : Row) (c : String) : Option String :=
  r.dims.lookup c

/-- Lines 66–68: for each `(col, val)` in `filters`, if `val != "All"` keep
only rows with `row[col] == val`.  A NaN cell compares unequal to every
value, as in pandas. -/
def applyFilters (df : List Row) (filters : List (String × String)) : List Row :=
  filters.foldl
    (fun acc f =>
      if f.2 = "All" then acc
      else acc.filter (fun r => decide (r.col f.1 = some f.2)))
    df

/-- Lines 75–78 (input side): after coercing the metric and dropping rows
with NaN metric or NaN month, `groupby(["Month", group_col])` silently drops
rows whose group key is NaN.  The surviving observations are
`(raw month label, group value, metric)` triples. -/
def cleanRows (df : List Row) (groupCol : String) : List (String × String × ℚ) :=
  df.filterMap fun r =>
    match r.month, r.col groupCol, r.avail with
    | some m, some g, some a => some (m, g, a)
    | _, _, _ => none

/-- Python string `<`: lexicographic comparison of code points. -/
def charListLt : List Char → List Char → Bool
  | [], [] => false
  | [], _ :: _ => true
  | _ :: _, [] => false
  | a :: as, b :: bs => a.toNat < b.toNat || (a = b && charListLt as bs)

/-- Python `a < b` on strings. -/
def strLt (a b : String) : Bool := charListLt a.data b.data

/-- Python `a <= b` on strings. -/
def strLe (a b : String) : Bool := strLt a b || a = b

/-- Insertion of `x` into `l` before the first element `y` with
`le x y = true`. -/
def insertBy {α : Type} (le : α → α → Bool) (x : α) : List α → List α
  | [] => [x]
  | y :: ys => if le x y then x :: y :: ys else y :: insertBy le x ys

/-- Insertion sort by a boolean comparator (models both python `sorted` and
`DataFrame.sort_values`). -/
def sortBy {α : Type} (le : α → α → Bool) : List α → List α
  | [] => []
  | x :: xs => insertBy le x (sortBy le xs)

/-- Lexicographic comparator on `(Month label, group value)` pairs — the key
order `groupby(["Month", group_col], sort=True)` emits groups in. -/
def pairLE (a b : String × String) : Bool :=
  strLt a.1 b.1 || (a.1 = b.1 && strLe a.2 b.2)

/-- Mean of a list of rationals (pandas `mean` over a non-empty group). -/
def listMean (l : List ℚ) : ℚ := l.sum / l.length

/-- Line 78: `groupby(["Month", group_col], as_index=False)["Availability (Ave)"].mean()` —
one output row per distinct `(month, group)` key, keys in sorted order,
carrying the arithmetic mean of the metric over the key's rows. -/
def groupedMeans (rows : List (String × String × ℚ)) : List (String × String × ℚ) :=
  let keys := sortBy pairLE ((rows.map fun r => (r.1, r.2.1)).dedup)
  keys.map fun k =>
    (k.1, k.2,
      listMean (rows.filterMap fun r =>
        if (r.1, r.2.1) = k then some r.2.2 else none))

/-- Python `str.title()` scanner: an alphabetic character is upper-cased when
the previous character is not alphabetic, lower-cased otherwise. -/
def pyTitleAux : Bool → List Char → List Char
  | _, [] => []
  | prevAlpha, c :: cs =>
    if c.isAlpha then
      (if prevAlpha then c.toLower else c.toUpper) :: pyTitleAux true cs
    else
      c :: pyTitleAux false cs

/-- Python `str.title()` on a string. -/
def pyTitle (s : String) : String := ⟨pyTitleAux false s.data⟩

/-- Python `str.strip()`: drop whitespace from both ends. -/
def stripChars (l : List Char) : List Char :=
  ((l.dropWhile Char.isWhitespace).reverse.dropWhile Char.isWhitespace).reverse

/-- Line 79: `.str.strip().str[:3].str.title()`. -/
def normalizeMonth (s : String) : String := pyTitle ⟨(stripChars s.data).take 3⟩

/-- Line 80: the twelve canonical month abbreviations. -/
def validMonths : List String :=
  ["Jan", "Feb", "Mar", "Apr", "May", "Jun",
   "Jul", "Aug", "Sep", "Oct", "Nov", "Dec"]

/-- Position of a string in a list (first occurrence). -/
def idxIn (m : String) : List String → Option Nat
  | [] => none
  | x :: xs => if m = x then some 0 else (idxIn m xs).map (· + 1)

/-- Line 84: `pd.to_datetime(month + '-2025', format='%b-%Y')` restricted to
the canonical labels — returns the month's position (0 = Jan) as the
chronological sort key inside the fixed synthetic year 2025, or `none` when
the label is not a canonical month abbreviation (the parse raises). -/
def monthIdx (m : String) : Option Nat := idxIn m validMonths

/-- Vectorised date conversion (line 84): succeeds on all rows, keying each
with its month index, or fails as a whole if any row's label fails to
parse. -/
def mapMonths : List (String × String × ℚ) → Option (List (Nat × String × String × ℚ))
  | [] => some []
  | p :: ps =>
    match monthIdx p.1, mapMonths ps with
    | some i, some rest => some ((i, p.1, p.2.1, p.2.2) :: rest)
    | _, _ => none

/-- Line 89 comparator: `sort_values(by=['Month', group_col])` — by synthetic
date first, group value second. -/
def keyedLE (a b : Nat × String × String × ℚ) : Bool :=
  decide (a.1 < b.1) || (decide (a.1 = b.1) && strLe a.2.2.1 b.2.2.1)

/-- Line 90: `.round(2)`.  (pandas rounds the underlying binary float
half-to-even; on values exactly representable with two decimals the two
conventions coincide.) -/
def round2 (q : ℚ) : ℚ := (⌊q * 100 + 1 / 2⌋ : ℚ) / 100

/-- Outcome of one `plot_line_chart` render pass:
`noData` = the `st.warning` + `return` at lines 71–73;
`formatError` = the `st.error` + `return` at lines 85–87;
`chart pts` = the plotly figure, with one point per aggregated row,
as `(month label, group value, rounded mean)`. -/
inductive PlotResult
  | noData
  | formatError
  | chart (pts : List (String × String × ℚ))
  deriving DecidableEq, Repr

/-- Lines 83–113 given the grouped rows that survived the
`isin(valid_months)` filter: convert months to synthetic dates (line 84) —
on failure surface the format error (lines 85–87) — then sort by
(date, group) and round the means to two decimals. -/
def finishStage (valid : List (String × String × ℚ)) : PlotResult :=
  match mapMonths valid with
  | none => .formatError
  | some keyed =>
    .chart ((sortBy keyedLE keyed).map fun q => (q.2.1, q.2.2.1, round2 q.2.2.2))

/-- Lines 75–81 applied to the (non-empty) filtered rows: coerce + drop,
group with means, re-normalize the month labels, and keep only groups whose
normalized label is canonical. -/
def validGroupsFrom (filtered : List Row) (groupCol : String) :
    List (String × String × ℚ) :=
  ((groupedMeans (cleanRows filtered groupCol)).map
      (fun p => (normalizeMonth p.1, p.2.1, p.2.2))).filter
    (fun p => decide (p.1 ∈ validMonths))

/-- The grouped-and-validated stage of the pipeline, from the raw inputs. -/
def validGroups (df : List Row) (groupCol : String)
    (filters : List (String × String)) : List (String × String × ℚ) :=
  validGroupsFrom (applyFilters df filters) groupCol

/-- `plot_line_chart(df, group_col, filters, ...)`, lines 64–113: filter,
bail out with the no-data warning on an empty filtered set, then aggregate
and shape. -/
def plot_line_chart (df : List Row) (groupCol : String)
    (filters : List (String × String)) : PlotResult :=
  let filtered := applyFilters df filters
  if filtered.isEmpty then .noData
  else finishStage (validGroupsFrom filtered groupCol)

/-! ## The pandas-frame view of a `plot_line_chart` call (line 65)

The python function receives the caller's `DataFrame` object and immediately
rebinds `filtered = df.copy()` (line 65); every subsequent write —
boolean-mask reassignment (line 68), column assignment (line 75),
`dropna(..., inplace=True)` (line 76), `sort_values(..., inplace=True)`
(line 89) — targets `filtered` or the derived `grouped` frame, never the
caller's object.  `Frames` holds the two frame slots visible across the
call; `runPlotLineChart` threads them explicitly. -/

structure Frames where
  df : List Row
  filtered : List Row

/-- One `plot_line_chart` call with the caller-visible frame state made
explicit.  The returned `Frames.df` is what the caller's dataset object
holds after the call. -/
def runPlotLineChart (h : Frames) (groupCol : String)
    (filters : List (String × String)) : Frames × PlotResult :=
  let h₁ : Frames := { h with filtered := h.df }
  let h₂ : Frames := { h₁ with filtered := applyFilters h₁.filtered filters }
  if h₂.filtered.isEmpty then (h₂, .noData)
  else (h₂, finishStage (validGroupsFrom h₂.filtered groupCol))

/-! ## Cascading selectors (lines 247–259, 330–341, 348–363, 376–395)

Each tab builds, per dimension, `["All"] + sorted(frame[col].dropna().unique())`
from the frame narrowed by the selections made on the earlier dimensions. -/

/-- The non-missing values of column `c` (pandas `.dropna()`). -/
def colValues (rows : List Row) (c : String) : List String :=
  rows.filterMap (fun r => r.col c)

/-- `["All"] + sorted(frame[c].dropna().unique())`. -/
def optionList (rows : List Row) (c : String) : List String :=
  "All" :: sortBy strLe (colValues rows c).dedup

/-- `frame[frame[c] == v] if v != "All" else frame` — the narrowing applied
between one selector and the next. -/
def narrowDim (rows : List Row) (c v : String) : List Row :=
  if v = "All" then rows
  else rows.filter (fun r => decide (r.col c = some v))

/-! ## Site-id self-healing reset (lines 402–407) -/

/-- Line 402: `siteid_list = ["All"] + sorted(site_filtered['site_id'].dropna().unique())`. -/
def siteIdOptions (rows : List Row) : List String :=
  optionList rows "site_id"

/-- Line 404: `random.choice(siteid_list[1:]) if len(siteid_list) > 1 else "All"`.
The random draw is modelled by the choice index `k`, reduced mod the number
of concrete options; every index is a possible draw. -/
def repairSiteId (l : List String) (k : Nat) : String :=
  if l.length > 1 then (l.drop 1).getD (k % (l.drop 1).length) "All"
  else "All"

/-- Lines 403–407: keep the session's `site_id` when it is still a member of
the recomputed option list; otherwise repair it (`prior = none` models
`'site_id' not in st.session_state`).  The selectbox then renders at the
resolved value's index, so the resolved selection is this value. -/
def resolveSiteId (prior : Option String) (l : List String) (k : Nat) : String :=
  match prior with
  | some v => if v ∈ l then v else repairSiteId l k
  | none => repairSiteId l k

/-! ## KPI color banding (lines 177–189) and Final-KPI coercion (line 212)

A `Final KPI` cell after `pd.to_numeric(_, errors='coerce').round(2)`
(line 212) is either a number (`some q`) or NaN (`none`, for a missing or
non-numeric cell).  In python every ordered comparison against NaN is
`False`, so a NaN value falls through all five branches of
`color_final_kpi` and keeps `color = ''`. -/

/-- `color_final_kpi` (lines 177–189), with the python chained comparisons
`80 <= val < 85` written as conjunctions and the NaN case made explicit. -/
def color_final_kpi : Option ℚ → String
  | none => ""
  | some val =>
    if val < 80 then "background-color: #FF0000"
    else if 80 ≤ val ∧ val < 85 then "background-color: orange"
    else if 85 ≤ val ∧ val < 90 then "background-color: #92D050"
    else if 90 ≤ val ∧ val < 95 then "background-color: #00B050"
    else if 95 ≤ val then "background-color: #00B0F0"
    else ""

/-- The five-band classification exactly as the spec words it: half-open
bands `<80`, `[80,85)`, `[85,90)`, `[90,95)`, `≥95`.  Stated from the spec,
to be compared with `color_final_kpi`. -/
def specColorBand (v : ℚ) : String :=
  if v < 80 then "background-color: #FF0000"
  else if v < 85 then "background-color: orange"
  else if v < 90 then "background-color: #92D050"
  else if v < 95 then "background-color: #00B050"
  else "background-color: #00B0F0"

/-! ## Display table and Excel export (lines 199–237) -/

/-- Line 200: `columns_to_show`. -/
def columns_to_show : List String :=
  ["NOP", "Period_str", "Final KPI", "KPI A", "KPI B", "A1", "A2", "A3",
   "A4", "A5", "A6", "B1", "B2.1", "B2.2", "B2.3", "B3", "B4.1", "B4.2",
   "B5.1", "B5.2"]

/-- Lines 206–215 (shape only): select `columns_to_show` from each row (a
raw row is its cells as an association list; a displayed cell is `none` when
the column is absent), `reset_index(drop=True)`, then `index += 1`: the row
at storage position `i` carries display index `i + 1`. -/
def displayRows : Nat → List (List (String × String)) → List (Nat × List (Option String))
  | _, [] => []
  | i, r :: rs => (i + 1, columns_to_show.map (fun c => r.lookup c)) :: displayRows (i + 1) rs

/-- The displayed table: 1-based display index paired with the cells in
`columns_to_show` order. -/
def displayTable (raw : List (List (String × String))) : List (Nat × List (Option String)) :=
  displayRows 0 raw

/-- One sheet of the exported workbook. -/
structure Sheet where
  sheetName : String
  header : List String
  rows : List (List (Option String))
  deriving DecidableEq, Repr

/-- Lines 226–230: `display_df.to_excel(writer, index=False, sheet_name='ENOM_KPI')`
inside one `ExcelWriter` — a single sheet whose header row is the displayed
column order and whose data rows are the displayed rows in display order;
`index=False` omits the index column. -/
def exportExcel (disp : List (Nat × List (Option String))) : List Sheet :=
  [⟨"ENOM_KPI", columns_to_show, disp.map Prod.snd⟩]

/-! ## Concrete datasets used to instantiate the claims -/

/-- The literal scenario of §8.4 of the spec: period labels Mar, Jan, bogus
with metric values 98.5, 97.2, 50.0, one group value `"R"`. -/
def c1df : List Row :=
  [⟨[("area", "A"), ("regional", "R")], some "Mar", some 98.5⟩,
   ⟨[("area", "A"), ("regional", "R")], some "Jan", some 97.2⟩,
   ⟨[("area", "A"), ("regional", "R")], some "bogus", some 50.0⟩]

/-- One row whose `area` is `"A"`; filtering on `area = "X"` empties it. -/
def c4df : List Row := [⟨[("area", "A")], some "Jan", some 1⟩]

/-- One row whose only month label is out of vocabulary: the filtered set is
non-empty but every group is discarded by the `isin(valid_months)` filter. -/
def c5df : List Row := [⟨[("regional", "R")], some "bogus", some 50⟩]

/-- Two rows with site ids S1 and S2. -/
def c6rows : List Row :=
  [⟨[("site_id", "S1")], none, none⟩, ⟨[("site_id", "S2")], none, none⟩]

/-- Chronological key of a chart point's month label. -/
def monthNum (m : String) : Nat := (monthIdx m).getD 0

/-- The chart's points are in calendar-month order. -/
def chronoSorted (pts : List (String × String × ℚ)) : Prop :=
  pts.Pairwise (fun a b => monthNum a.1 ≤ monthNum b.1)

/-! ## General lemmas about the sorting, indexing and grouping helpers -/

theorem length_insertBy {α : Type} (le : α → α → Bool) (x : α) (l : List α) :
    (insertBy le x l).length = l.length + 1 := by
  induction l with
  | nil => rfl
  | cons y ys ih =>
    unfold insertBy
    split
    · rfl
    · simpa using ih

theorem length_sortBy {α : Type} (le : α → α → Bool) (l : List α) :
    (sortBy le l).length = l.length := by
  induction l with
  | nil => rfl
  | cons x xs ih => simp [sortBy, length_insertBy, ih]

theorem mem_insertBy {α : Type} (le : α → α → Bool) (x a : α) (l : List α) :
    a ∈ insertBy le x l ↔ a = x ∨ a ∈ l := by
  induction l with
  | nil => simp [insertBy]
  | cons y ys ih =>
    unfold insertBy
    split
    · simp [or_comm, or_assoc, or_left_comm]
    · simp [ih]
      tauto

theorem mem_sortBy {α : Type} (le : α → α → Bool) (a : α) (l : List α) :
    a ∈ sortBy le l ↔ a ∈ l := by
  induction l with
  | nil => simp [sortBy]
  | cons x xs ih => simp [sortBy, mem_insertBy, ih]

theorem pairwise_insertBy {α : Type} (R : α → α → Prop) (le : α → α → Bool)
    (htrans : ∀ a b c, R a b → R b c → R a c)
    (hF : ∀ a b, le a b = true → R a b)
    (hT : ∀ a b, le a b = false → R b a)
    (x : α) (l : List α) (h : l.Pairwise R) :
    (insertBy le x l).Pairwise R := by
  induction l with
  | nil => simp [insertBy]
  | cons y ys ih =>
    rcases List.pairwise_cons.1 h with ⟨hy, hys⟩
    unfold insertBy
    split
    case isTrue hle =>
      refine List.pairwise_cons.2 ⟨?_, h⟩
      intro z hz
      rcases List.mem_cons.1 hz with rfl | hz
      · exact hF _ _ hle
      · exact htrans _ _ _ (hF _ _ hle) (hy _ hz)
    case isFalse hle =>
      refine List.pairwise_cons.2 ⟨?_, ih hys⟩
      intro z hz
      rcases (mem_insertBy le x z ys).1 hz with rfl | hz
      · exact hT _ _ (by simpa using hle)
      · exact hy _ hz

theorem pairwise_sortBy {α : Type} (R : α → α → Prop) (le : α → α → Bool)
    (htrans : ∀ a b c, R a b → R b c → R a c)
    (hF : ∀ a b, le a b = true → R a b)
    (hT : ∀ a b, le a b = false → R b a)
    (l : List α) : (sortBy le l).Pairwise R := by
  induction l with
  | nil => simp [sortBy]
  | cons x xs ih => exact pairwise_insertBy R le htrans hF hT x _ ih

theorem idxIn_mem {m : String} {l : List String} {i : Nat}
    (h : idxIn m l = some i) : m ∈ l := by
  induction l generalizing i with
  | nil => simp [idxIn] at h
  | cons x xs ih =>
    unfold idxIn at h
    split at h
    case isTrue he => simp [he]
    case isFalse he =>
      rcases Option.map_eq_some'.1 h with ⟨j, hj, _⟩
      exact List.mem_cons_of_mem _ (ih hj)

theorem idxIn_isSome_of_mem {m : String} {l : List String} (h : m ∈ l) :
    (idxIn m l).isSome := by
  induction l with
  | nil => simp at h
  | cons x xs ih =>
    unfold idxIn
    split
    · rfl
    case isFalse he =>
      rcases List.mem_cons.1 h with rfl | h
      · exact absurd rfl he
      · rcases Option.isSome_iff_exists.1 (ih h) with ⟨j, hj⟩
        simp [hj]

theorem mapMonths_mem {l : List (String × String × ℚ)}
    {keyed : List (Nat × String × String × ℚ)}
    (h : mapMonths l = some keyed) :
    ∀ q ∈ keyed, monthIdx q.2.1 = some q.1 := by
  induction l generalizing keyed with
  | nil =>
    simp [mapMonths] at h
    subst h
    simp
  | cons p ps ih =>
    unfold mapMonths at h
    cases hm : monthIdx p.1 with
    | none => simp [hm] at h
    | some i =>
      cases hr : mapMonths ps with
      | none => simp [hm, hr] at h
      | some rest =>
        simp [hm, hr] at h
        intro q hq
        rcases List.mem_cons.1 (h ▸ hq) with rfl | hq'
        · simpa using hm
        · exact ih hr q hq'

theorem mapMonths_ne_none {l : List (String × String × ℚ)}
    (h : ∀ p ∈ l, p.1 ∈ validMonths) : mapMonths l ≠ none := by
  induction l with
  | nil => simp [mapMonths]
  | cons p ps ih =>
    have hp := h p (List.mem_cons_self p ps)
    rcases Option.isSome_iff_exists.1 (idxIn_isSome_of_mem hp) with ⟨i, hi⟩
    have hps : mapMonths ps ≠ none := ih (fun q hq => h q (List.mem_cons_of_mem _ hq))
    rcases Option.ne_none_iff_exists'.1 hps with ⟨rest, hrest⟩
    unfold mapMonths
    rw [show monthIdx p.1 = some i from hi, hrest]
    simp

theorem validGroupsFrom_months {filtered : List Row} {gc : String} :
    ∀ p ∈ validGroupsFrom filtered gc, p.1 ∈ validMonths := by
  intro p hp
  unfold validGroupsFrom at hp
  exact of_decide_eq_true (List.mem_filter.1 hp).2

theorem keyedLE_true {a b : Nat × String × String × ℚ}
    (h : keyedLE a b = true) : a.1 ≤ b.1 := by
  unfold keyedLE at h
  rcases Bool.or_eq_true_iff.1 h with h1 | h2
  · exact le_of_lt (of_decide_eq_true h1)
  · exact le_of_eq (of_decide_eq_true (Bool.and_eq_true_iff.1 h2).1)

theorem keyedLE_false {a b : Nat × String × String × ℚ}
    (h : keyedLE a b = false) : b.1 ≤ a.1 := by
  unfold keyedLE at h
  have h1 := (Bool.or_eq_false_iff.1 h).1
  exact le_of_not_lt (of_decide_eq_false h1)

/-- Any rendered chart only shows canonical months, in calendar order. -/
theorem chart_shape {df : List Row} {gc : String} {fs : List (String × String)}
    {pts : List (String × String × ℚ)}
    (h : plot_line_chart df gc fs = .chart pts) :
    (∀ p ∈ pts, p.1 ∈ validMonths) ∧ chronoSorted pts := by
  unfold plot_line_chart at h
  simp only [] at h
  split at h
  · exact absurd h (by simp)
  case isFalse =>
    unfold finishStage at h
    cases hm : mapMonths (validGroupsFrom (applyFilters df fs) gc) with
    | none => rw [hm] at h; exact absurd h (by simp)
    | some keyed =>
      rw [hm] at h
      have hpts : pts = (sortBy keyedLE keyed).map
          (fun q => (q.2.1, q.2.2.1, round2 q.2.2.2)) :=
        (PlotResult.chart.inj h).symm
      subst hpts
      constructor
      · intro p hp
        rcases List.mem_map.1 hp with ⟨q, hq, rfl⟩
        have hq' : q ∈ keyed := (mem_sortBy keyedLE q keyed).1 hq
        exact idxIn_mem (mapMonths_mem hm q hq')
      · have hpw : (sortBy keyedLE keyed).Pairwise (fun a b => a.1 ≤ b.1) :=
          pairwise_sortBy (fun a b => a.1 ≤ b.1) keyedLE
            (fun a b c hab hbc => Nat.le_trans hab hbc)
            (fun a b => keyedLE_true) (fun a b => keyedLE_false) keyed
        unfold chronoSorted
        rw [List.pairwise_map]
        refine List.Pairwise.imp_of_mem ?_ hpw
        intro a b ha hb hab
        have hia := mapMonths_mem hm a ((mem_sortBy keyedLE a keyed).1 ha)
        have hib := mapMonths_mem hm b ((mem_sortBy keyedLE b keyed).1 hb)
        simpa [monthNum, hia, hib] using hab

theorem floor_half : (⌊(1 / 2 : ℚ)⌋ : ℤ) = 0 := by
  rw [Int.floor_eq_zero_iff]
  constructor <;> norm_num

theorem round2_int_div100 (n : ℤ) : round2 ((n : ℚ) / 100) = (n : ℚ) / 100 := by
  unfold round2
  have h : (n : ℚ) / 100 * 100 = (n : ℚ) := by field_simp
  rw [h, show ((n : ℚ) + 1 / 2) = ((n : ℤ) : ℚ) + 1 / 2 by norm_num,
    Int.floor_int_add, floor_half]
  norm_num

theorem round2_972 : round2 (listMean [(97.2 : ℚ)]) = 97.2 := by
  have h : listMean [(97.2 : ℚ)] = ((9720 : ℤ) : ℚ) / 100 := by norm_num [listMean]
  rw [h, round2_int_div100]
  norm_num

theorem round2_985 : round2 (listMean [(98.5 : ℚ)]) = 98.5 := by
  have h : listMean [(98.5 : ℚ)] = ((9850 : ℤ) : ℚ) / 100 := by norm_num [listMean]
  rw [h, round2_int_div100]
  norm_num

theorem narrowDim_sublist (rows : List Row) (c v : String) :
    (narrowDim rows c v).Sublist rows := by
  unfold narrowDim
  split
  · exact List.Sublist.refl rows
  · exact List.filter_sublist rows

theorem dedup_length_le_of_sublist {l l' : List String} (h : l.Sublist l') :
    l.dedup.length ≤ l'.dedup.length := by
  rw [← List.card_toFinset, ← List.card_toFinset]
  apply Finset.card_le_card
  intro a ha
  rw [List.mem_toFinset] at ha ⊢
  exact h.subset ha

theorem repairSiteId_mem_tail {l : List String} (k : Nat) (htail : l.drop 1 ≠ []) :
    repairSiteId l k ∈ l.drop 1 := by
  have hlen : 0 < (l.drop 1).length := List.length_pos.2 htail
  have hl : 1 < l.length := by
    rw [List.length_drop] at hlen
    omega
  unfold repairSiteId
  rw [if_pos hl, List.getD_eq_getElem _ _ (Nat.mod_lt _ hlen)]
  exact List.getElem_mem _

theorem repairSiteId_all {l : List String} (k : Nat) (htail : l.drop 1 = []) :
    repairSiteId l k = "All" := by
  unfold repairSiteId
  split
  case isTrue hl =>
    rw [htail]
    rfl
  case isFalse => rfl

theorem repairSiteId_surj {l : List String} {m : String} (hm : m ∈ l.drop 1) :
    ∃ j, repairSiteId l j = m := by
  rcases List.mem_iff_get.1 hm with ⟨⟨n, hn⟩, hget⟩
  have hl : 1 < l.length := by
    have := hn
    rw [List.length_drop] at this
    omega
  refine ⟨n, ?_⟩
  unfold repairSiteId
  rw [if_pos hl, Nat.mod_eq_of_lt hn, List.getD_eq_getElem _ _ hn]
  simpa [List.get_eq_getElem] using hget

/-- The option list always begins with the wildcard. -/
theorem siteIdOptions_head (rows : List Row) :
    siteIdOptions rows = "All" :: (siteIdOptions rows).drop 1 := rfl

theorem displayRows_indices (raw : List (List (String × String))) :
    ∀ i, (displayRows i raw).map Prod.fst = List.range' (i + 1) raw.length := by
  induction raw with
  | nil => intro i; rfl
  | cons r rs ih =>
    intro i
    simp only [displayRows, List.map_cons, List.length_cons, List.range'_succ]
    exact congrArg _ (ih (i + 1))

/-! ## The claims -/

/-- C1: on period labels Mar, Jan, bogus with metric values 98.5, 97.2, 50.0,
the aggregation pipeline emits exactly the two points (Jan, 97.2) and
(Mar, 98.5) in that (chronological) order; in general every chart the
pipeline emits shows only the twelve canonical month labels (out-of-vocabulary
labels are dropped, not erred) and its points are sorted by calendar month. -/
theorem c1_period_filtering_and_order :
    plot_line_chart c1df "regional" [("area", "All")]
        = .chart [("Jan", "R", 97.2), ("Mar", "R", 98.5)]
    ∧ ∀ (df : List Row) (gc : String) (fs : List (String × String))
        (pts : List (String × String × ℚ)),
        plot_line_chart df gc fs = .chart pts →
          (∀ p ∈ pts, p.1 ∈ validMonths) ∧ chronoSorted pts := by
  constructor
  · have h : plot_line_chart c1df "regional" [("area", "All")]
        = .chart [("Jan", "R", round2 (listMean [97.2])),
                  ("Mar", "R", round2 (listMean [98.5]))] := rfl
    rw [h, round2_972, round2_985]
  · exact fun df gc fs pts h => chart_shape h

/-- Witness for C1: the general clause instantiated at the literal scenario. -/
theorem c1_witness :
    plot_line_chart c1df "regional" [("area", "All")]
        = .chart [("Jan", "R", 97.2), ("Mar", "R", 98.5)]
    ∧ (∀ p ∈ [("Jan", "R", (97.2 : ℚ)), ("Mar", "R", 98.5)], p.1 ∈ validMonths)
    ∧ chronoSorted [("Jan", "R", 97.2), ("Mar", "R", 98.5)] :=
  ⟨c1_period_filtering_and_order.1,
   c1_period_filtering_and_order.2 c1df "regional" [("area", "All")] _
     c1_period_filtering_and_order.1⟩

/-- C2: narrowing a dimension to any concrete value never increases the next
dimension's candidate option-set size, relative to leaving it at "All". -/
theorem c2_cascade_monotonicity (rows : List Row) (c v c' : String) :
    (optionList (narrowDim rows c v) c').length
      ≤ (optionList (narrowDim rows c "All") c').length := by
  have hAll : narrowDim rows c "All" = rows := by unfold narrowDim; simp
  rw [hAll]
  unfold optionList
  simp only [List.length_cons, length_sortBy]
  have hsub : (colValues (narrowDim rows c v) c').Sublist (colValues rows c') :=
    List.Sublist.filterMap _ (narrowDim_sublist rows c v)
  exact Nat.succ_le_succ (dedup_length_le_of_sublist hsub)

/-- C3: on numbers, `color_final_kpi` is exactly the five-band half-open
classification the spec describes (hence total over the five bands), and the
boundaries 80 and 95 fall in the orange and blue bands. -/
theorem c3_color_banding :
    (∀ v : ℚ, color_final_kpi (some v) = specColorBand v)
    ∧ (∀ v : ℚ, specColorBand v ∈
        ["background-color: #FF0000", "background-color: orange",
         "background-color: #92D050", "background-color: #00B050",
         "background-color: #00B0F0"])
    ∧ color_final_kpi (some 80) = "background-color: orange"
    ∧ color_final_kpi (some 95) = "background-color: #00B0F0" := by
  refine ⟨?_, ?_, ?_, ?_⟩
  · intro v
    unfold color_final_kpi specColorBand
    by_cases h1 : v < 80
    · simp [h1]
    · have h1' : 80 ≤ v := not_lt.1 h1
      by_cases h2 : v < 85
      · simp [h1, h1', h2]
      · by_cases h3 : v < 90
        · simp [h1, h2, not_lt.1 h2, h3]
        · by_cases h4 : v < 95
          · simp [h1, h2, h3, not_lt.1 h3, h4]
          · simp [h1, h2, h3, h4, not_lt.1 h4]
  · intro v
    unfold specColorBand
    split_ifs <;> simp
  · norm_num [color_final_kpi]
  · norm_num [color_final_kpi]

/-- C4: if the conjunctive equality filters empty the dataset, the pipeline
returns the no-data signal (a warning, no chart, no exception). -/
theorem c4_empty_after_filter (df : List Row) (gc : String)
    (fs : List (String × String)) (h : applyFilters df fs = []) :
    plot_line_chart df gc fs = .noData := by
  unfold plot_line_chart
  simp [h]

/-- Witness for C4: a one-row dataset filtered to an absent value. -/
theorem c4_witness : plot_line_chart c4df "area" [("area", "X")] = .noData :=
  c4_empty_after_filter c4df "area" [("area", "X")] (by decide)

/-- Counterexample to C5: a non-empty filtered set whose only group is
discarded by the month-vocabulary filter does NOT produce the no-data
signal — the pipeline renders a chart with zero points instead. -/
theorem c5_counterexample :
    (applyFilters c5df []).length = 1
    ∧ validGroups c5df "regional" [] = []
    ∧ plot_line_chart c5df "regional" [] = .chart []
    ∧ plot_line_chart c5df "regional" [] ≠ .noData := by
  refine ⟨rfl, rfl, rfl, ?_⟩
  intro h
  rw [show plot_line_chart c5df "regional" [] = .chart [] from rfl] at h
  exact PlotResult.noConfusion h

/-- C5 as amended: there is no second no-data check; when the filtered set is
non-empty but the grouped-and-validated result is empty, the pipeline
proceeds and renders a chart with zero points. -/
theorem c5_amended (df : List Row) (gc : String) (fs : List (String × String))
    (hne : applyFilters df fs ≠ []) (hempty : validGroups df gc fs = []) :
    plot_line_chart df gc fs = .chart [] := by
  unfold plot_line_chart
  rw [if_neg (by simpa [List.isEmpty_iff] using hne)]
  unfold validGroups at hempty
  rw [hempty]
  rfl

/-- Witness for the amended C5. -/
theorem c5_witness : plot_line_chart c5df "regional" [] = .chart [] :=
  c5_amended c5df "regional" []
    (fun h => absurd (congrArg List.length h) (by decide)) rfl

/-- C6: after one recomputation of the site-id option list, the resolved
selection is a member of that list; a stale (or absent) selection is repaired
to a random concrete member — any concrete member is a possible outcome —
whenever one exists, and to "All" otherwise. -/
theorem c6_site_id_self_healing (rows : List Row) (prior : Option String) (k : Nat) :
    resolveSiteId prior (siteIdOptions rows) k ∈ siteIdOptions rows
    ∧ ((prior = none ∨ ∃ v, prior = some v ∧ v ∉ siteIdOptions rows) →
        ((siteIdOptions rows).drop 1 ≠ [] →
            resolveSiteId prior (siteIdOptions rows) k ∈ (siteIdOptions rows).drop 1
            ∧ ∀ m ∈ (siteIdOptions rows).drop 1,
                ∃ j, resolveSiteId prior (siteIdOptions rows) j = m)
        ∧ ((siteIdOptions rows).drop 1 = [] →
            resolveSiteId prior (siteIdOptions rows) k = "All")) := by
  set l := siteIdOptions rows with hl
  have hrepair : ∀ j, repairSiteId l j ∈ l := by
    intro j
    by_cases htail : l.drop 1 = []
    · rw [repairSiteId_all j htail, hl, siteIdOptions_head]
      exact List.mem_cons_self _ _
    · exact List.mem_of_mem_drop (repairSiteId_mem_tail j htail)
  have hstale : (prior = none ∨ ∃ v, prior = some v ∧ v ∉ l) →
      ∀ j, resolveSiteId prior l j = repairSiteId l j := by
    rintro (rfl | ⟨v, rfl, hv⟩) j
    · rfl
    · simp only [resolveSiteId, if_neg hv]
  constructor
  · cases prior with
    | none => exact hrepair k
    | some v =>
      simp only [resolveSiteId]
      split
      case isTrue h => exact h
      case isFalse => exact hrepair k
  · intro hst
    refine ⟨fun htail => ⟨?_, ?_⟩, fun htail => ?_⟩
    · rw [hstale hst k]
      exact repairSiteId_mem_tail k htail
    · intro m hm
      rcases repairSiteId_surj hm with ⟨j, hj⟩
      exact ⟨j, by rw [hstale hst j, hj]⟩
    · rw [hstale hst k]
      exact repairSiteId_all k htail

/-- Witness for C6: a stale selection over site ids S1, S2 resolves into the
concrete options, and S2 is a possible outcome. -/
theorem c6_witness :
    resolveSiteId (some "stale") (siteIdOptions c6rows) 0 ∈ siteIdOptions c6rows
    ∧ resolveSiteId (some "stale") (siteIdOptions c6rows) 0
        ∈ (siteIdOptions c6rows).drop 1
    ∧ ∃ j, resolveSiteId (some "stale") (siteIdOptions c6rows) j = "S2" := by
  have h := c6_site_id_self_healing c6rows (some "stale") 0
  have hst : (some "stale" : Option String) = none
      ∨ ∃ v, (some "stale" : Option String) = some v ∧ v ∉ siteIdOptions c6rows :=
    Or.inr ⟨"stale", rfl, by decide⟩
  have htail : (siteIdOptions c6rows).drop 1 ≠ [] := by decide
  exact ⟨h.1, ((h.2 hst).1 htail).1, ((h.2 hst).1 htail).2 "S2" (by decide)⟩

/-- C7: a failing month-to-date conversion surfaces the format error, which
is distinct from the no-data signal; and because non-canonical labels are
discarded before the conversion, no run of the pipeline can ever reach the
format-error branch. -/
theorem c7_format_error_unreachable :
    (∀ valid, mapMonths valid = none → finishStage valid = .formatError)
    ∧ (PlotResult.formatError ≠ .noData)
    ∧ ∀ (df : List Row) (gc : String) (fs : List (String × String)),
        plot_line_chart df gc fs ≠ .formatError := by
  refine ⟨?_, by simp, ?_⟩
  · intro valid h
    unfold finishStage
    rw [h]
  · intro df gc fs
    unfold plot_line_chart
    simp only []
    split
    · simp
    · unfold finishStage
      cases hm : mapMonths (validGroupsFrom (applyFilters df fs) gc) with
      | none => exact absurd hm (mapMonths_ne_none validGroupsFrom_months)
      | some keyed => simp

/-- Witness for C7: an unparseable label makes the conversion stage fail into
the format error, and a concrete pipeline run is not a format error. -/
theorem c7_witness :
    finishStage [("Zzz", "g", (1 : ℚ))] = .formatError
    ∧ plot_line_chart [] "g" [] ≠ .formatError :=
  ⟨c7_format_error_unreachable.1 [("Zzz", "g", 1)] rfl,
   c7_format_error_unreachable.2.2 [] "g" []⟩

/-- C8: the export serializes the displayed table to a single sheet named
ENOM_KPI whose header row is the displayed column order and whose data rows
are the displayed rows in display order, and the display indices are exactly
1..N in order — so the 1-based display index of a row equals its 1-based
data-row position in the sheet. -/
theorem c8_export_fidelity (raw : List (List (String × String))) :
    exportExcel (displayTable raw)
        = [⟨"ENOM_KPI", columns_to_show, (displayTable raw).map Prod.snd⟩]
    ∧ (exportExcel (displayTable raw)).length = 1
    ∧ (displayTable raw).map Prod.fst = List.range' 1 raw.length := by
  exact ⟨rfl, rfl, displayRows_indices raw 0⟩

/-- C9: a `plot_line_chart` call never mutates the caller's dataset — all
narrowing, coercion, dropping and grouping happens on the copy taken at
line 65 — and the call's result is the pure pipeline function of the
dataset. -/
theorem c9_dataset_immutability (h : Frames) (gc : String)
    (fs : List (String × String)) :
    (runPlotLineChart h gc fs).1.df = h.df
    ∧ (runPlotLineChart h gc fs).2 = plot_line_chart h.df gc fs := by
  unfold runPlotLineChart plot_line_chart
  simp only []
  split <;> exact ⟨rfl, rfl⟩

/-- C10: a missing or coercion-failed (NaN) Final-KPI cell falls through all
five bands of `color_final_kpi` and gets the empty style — no background
color, in particular not the red default, and no exception. -/
theorem c10_nan_no_band :
    color_final_kpi none = ""
    ∧ color_final_kpi none ≠ "background-color: #FF0000" := by
  exact ⟨rfl, by simp [color_final_kpi]⟩

end Enomdash
